import Mathlib

/-!
Shallow embedding of the LFR controller core (`src/llmcontroller.py`,
class `LMMController`): the reconciliation loop (`manage_lfr_instances`),
the health evaluator (`monitor_lfr_health`, `_check_endpoint_health`),
the bounded-retry recovery loop (`_handle_unhealthy_deployment`) and the
configuration validator (`_validate_config`).

External collaborators (the Kubernetes client, the HTTP prober) are
modelled as oracles inside `ClusterEnv`: an `Except Unit α` result stands
for a call that either raises (`Except.error ()`) or returns a value.
-/

namespace LMMController

/-- One member pod as seen by `list_namespaced_pod`: only its (possibly
not yet assigned) IP address matters to the controller. -/
structure Pod where
  podIp : Option String
deriving DecidableEq

/-- One observed deployment as consumed by `monitor_lfr_health`:
`spec.replicas`, and `status.available_replicas` which may be `None`
for a workload that has not yet reported status. -/
structure Deployment where
  sourceName : String
  desiredReplicas : Nat
  availableReplicas : Option Nat
deriving DecidableEq

/-- The cluster-facing environment of one evaluation: listing the pods of
a source, probing one pod address (`Except.error ()` models a raised
network exception, `Except.ok b` models a response with `b` standing for
`status_code == 200`), and listing the labelled deployments. -/
structure ClusterEnv where
  podsOf : String → Except Unit (List Pod)
  probe : String → Except Unit Bool
  listDeployments : Except Unit (List Deployment)

/-- The `for pod in pods.items` loop of `_check_endpoint_health`: a pod
without an assigned IP is skipped; a probe exception or a non-200
response makes the whole check `false`; an empty (or all-unaddressed)
list yields `true`. -/
def probePods (probe : String → Except Unit Bool) : List Pod → Bool
  | [] => true
  | p :: rest =>
    match p.podIp with
    | none => probePods probe rest
    | some ip =>
      match probe ip with
      | Except.error _ => false
      | Except.ok ok => if ok then probePods probe rest else false

/-- `_check_endpoint_health` (llmcontroller.py lines 195-213): list the
source's pods and probe each addressed one; any exception (from the list
call or a probe) is caught and returns `false`. -/
def checkEndpointHealth (env : ClusterEnv) (sourceName : String) : Bool :=
  match env.podsOf sourceName with
  | Except.error _ => false
  | Except.ok pods => probePods env.probe pods

/-- The `deployment_healthy` conjunct of `monitor_lfr_health` (lines
229-232): `available_replicas is not None and available_replicas ==
desired_replicas`. -/
def deploymentHealthy (available : Option Nat) (desired : Nat) : Bool :=
  match available with
  | none => false
  | some a => a == desired

/-- `monitor_lfr_health` (lines 215-246): list the labelled deployments
and record, per source, `deployment_healthy and endpoint_healthy`; an
`ApiException` from the list call is caught and the accumulated (empty)
status mapping is returned. -/
def monitorLfrHealth (env : ClusterEnv) : List (String × Bool) :=
  match env.listDeployments with
  | Except.error _ => []
  | Except.ok ds =>
    ds.map fun d =>
      (d.sourceName,
        deploymentHealthy d.availableReplicas d.desiredReplicas &&
          checkEndpointHealth env d.sourceName)

/-- One entry of `config['log_sources']`: `name`, `enabled`, and
`instances.min` (the only replica bound read by the loop). -/
structure LogSourceSpec where
  name : String
  enabled : Bool
  instancesMin : Nat
deriving DecidableEq

/-- The mutation units emitted by one reconciliation pass: creating a
deployment with some replica count, patching its replica count, or
deleting it. -/
inductive Action where
  | create : String → Nat → Action
  | scale : String → Nat → Action
  | delete : String → Action
deriving DecidableEq

/-- The source name an action targets. -/
def Action.targetName : Action → String
  | Action.create n _ => n
  | Action.scale n _ => n
  | Action.delete n => n

/-- The per-source body of the `for source in self.config['log_sources']`
loop of `manage_lfr_instances` (lines 324-344), as the action it emits.
`needsScaleUp` and `currentReplicas` stand for `check_scaling_needs` and
`get_current_replicas`, which the source references but never defines
(the pluggable scaling policy); `observed` is the key set of
`current_sources`. -/
def reconcileOne (needsScaleUp : String → Bool) (currentReplicas : String → Nat)
    (observed : List String) (s : LogSourceSpec) : List Action :=
  if s.enabled then
    if s.name ∈ observed then
      if needsScaleUp s.name then
        [Action.scale s.name (currentReplicas s.name + 1)]
      else []
    else
      [Action.create s.name s.instancesMin]
  else
    if s.name ∈ observed then [Action.delete s.name] else []

/-- The action sequence one reconciliation pass computes over the
configured sources, in loop order. -/
def reconcile (needsScaleUp : String → Bool) (currentReplicas : String → Nat)
    (desired : List LogSourceSpec) (observed : List String) : List Action :=
  match desired with
  | [] => []
  | s :: rest =>
    reconcileOne needsScaleUp currentReplicas observed s ++
      reconcile needsScaleUp currentReplicas rest observed

/-- Execution of the reconciliation pass with side effects
(lines 324-344 together with `create_lfr_deployment`,
`scale_lfr_deployment`, `delete_lfr_deployment`): each emitted action is
executed at once; `apiFails a = true` models the cluster API raising an
`ApiException` on that call, which the three wrappers log and re-raise,
so the exception leaves the `for` loop and the pass stops. Returns the
actions attempted (in order, the failing one last) and whether the pass
was aborted by such a failure. -/
def applySources (apiFails : Action → Bool) (needsScaleUp : String → Bool)
    (currentReplicas : String → Nat) (observed : List String) :
    List LogSourceSpec → List Action × Bool
  | [] => ([], false)
  | s :: rest =>
    match reconcileOne needsScaleUp currentReplicas observed s with
    | [] => applySources apiFails needsScaleUp currentReplicas observed rest
    | a :: _ =>
      if apiFails a then ([a], true)
      else
        let r := applySources apiFails needsScaleUp currentReplicas observed rest
        (a :: r.1, r.2)

/-- Reference run for comparison with `applySources`, written from the
spec's error-handling words as amended: the actions of the pass are
attempted in order and a cluster-API failure stops the pass at the
failing action. -/
def abortAtFirstFailure (apiFails : Action → Bool) : List Action → List Action × Bool
  | [] => ([], false)
  | a :: rest =>
    if apiFails a then ([a], true)
    else
      let r := abortAtFirstFailure apiFails rest
      (a :: r.1, r.2)

/-- `max_retries` of `_handle_unhealthy_deployment` (line 254). -/
def maxRetries : Nat := 3

/-- What one recovery attempt can observe: whether the cluster API raised
an `ApiException` during the read/patch of this attempt, and the state of
the cluster after the restart and the settle delay (against which the
success check probes). -/
structure AttemptEnv where
  apiError : Bool
  post : ClusterEnv

/-- A recovery episode ends for its source in one of two ways. -/
inductive Outcome where
  | healthy : Outcome
  | failed : Outcome
deriving DecidableEq

/-- The `while retry_count < max_retries` loop of
`_handle_unhealthy_deployment` (lines 257-297), with `remaining` the
number of loop iterations the guard still allows and `restarts` the
patches issued so far. An attempt whose read/patch raises issues no
restart, is logged and falls through to the next iteration; otherwise the
restart patch is issued and, after the settle delay, success is decided
by `_check_endpoint_health` alone (line 290). Returns the restarts issued
and the terminal outcome. -/
def recoverGo (env : Nat → AttemptEnv) (sourceName : String) :
    Nat → Nat → Nat → Nat × Outcome
  | 0, _, restarts => (restarts, Outcome.failed)
  | remaining + 1, k, restarts =>
    if (env k).apiError then
      recoverGo env sourceName remaining (k + 1) restarts
    else if checkEndpointHealth (env k).post sourceName then
      (restarts + 1, Outcome.healthy)
    else
      recoverGo env sourceName remaining (k + 1) (restarts + 1)

/-- `_handle_unhealthy_deployment` (lines 248-299): run the bounded retry
loop from attempt 0 with no restarts issued yet. -/
def handleUnhealthyDeployment (env : Nat → AttemptEnv) (sourceName : String) :
    Nat × Outcome :=
  recoverGo env sourceName maxRetries 0 0

/-- The shape of a desired-state document as far as validation and the
namespace lookup read it: its top-level field names and the field names
of its `kubernetes` mapping (empty when that mapping is absent or
empty). -/
structure ConfigDoc where
  topLevelFields : List String
  kubernetesFields : List String
deriving DecidableEq

/-- `required_fields` of `_validate_config` (line 95). -/
def requiredFields : List String := ["kubernetes", "log_sources"]

/-- The `for field in required_fields` loop: raise `ValueError` (the
`Except.error` carries its message) at the first missing field. -/
def validateFields (doc : ConfigDoc) : List String → Except String Unit
  | [] => Except.ok ()
  | f :: rest =>
    if f ∈ doc.topLevelFields then validateFields doc rest
    else Except.error ("Missing required field: " ++ f)

/-- `_validate_config` (lines 87-99). -/
def validateConfig (doc : ConfigDoc) : Except String Unit :=
  validateFields doc requiredFields

/-! Concrete instances used by witnesses and counterexamples. -/

/-- Scenario D environment: one deployment with 3 desired and 2 available
replicas, every probe healthy. -/
def envScenarioD : ClusterEnv :=
  { podsOf := fun _ => Except.ok [⟨some "10.0.0.1"⟩]
    probe := fun _ => Except.ok true
    listDeployments := Except.ok [⟨"app1", 3, some 2⟩] }

/-- A deployment that has not reported status yet (`available_replicas`
is `None`) while every probe is healthy. -/
def envAvailNone : ClusterEnv :=
  { podsOf := fun _ => Except.ok [⟨some "10.0.0.1"⟩]
    probe := fun _ => Except.ok true
    listDeployments := Except.ok [⟨"app1", 3, none⟩] }

/-- An environment whose deployment listing raises. -/
def envListErr : ClusterEnv :=
  { podsOf := fun _ => Except.ok []
    probe := fun _ => Except.ok true
    listDeployments := Except.error () }

/-- A source whose only pod has no assigned address yet, while every
probe attempt would raise. -/
def envSkipPods : ClusterEnv :=
  { podsOf := fun _ => Except.ok [⟨none⟩]
    probe := fun _ => Except.error ()
    listDeployments := Except.ok [] }

/-! Helper lemmas. -/

/-- The pod-probing loop succeeds exactly when every addressed pod probes
healthy. -/
theorem probePods_eq_true_iff (probe : String → Except Unit Bool) (pods : List Pod) :
    probePods probe pods = true ↔
      ∀ p ∈ pods, ∀ ip, p.podIp = some ip → probe ip = Except.ok true := by
  induction pods with
  | nil => simp [probePods]
  | cons p rest ih =>
    cases hp : p.podIp with
    | none => simp [probePods, hp, ih]
    | some ip =>
      simp only [probePods, hp]
      cases hpr : probe ip with
      | error e =>
        simp only [hpr]
        refine iff_of_false (by simp) ?_
        intro h
        have hx := h p (List.mem_cons_self p rest) ip hp
        rw [hpr] at hx
        exact absurd hx (by simp)
      | ok b =>
        cases b with
        | false =>
          simp only [hpr]
          rw [if_neg (by simp)]
          refine iff_of_false (by simp) ?_
          intro h
          have hx := h p (List.mem_cons_self p rest) ip hp
          rw [hpr] at hx
          exact absurd hx (by simp)
        | true =>
          simp only [hpr]
          rw [if_pos trivial, ih]
          constructor
          · rintro h q hq ip' hip'
            rcases List.mem_cons.mp hq with rfl | hq
            · rw [hp] at hip'
              cases hip'
              exact hpr
            · exact h q hq ip' hip'
          · intro h q hq ip' hip'
            exact h q (List.mem_cons_of_mem _ hq) ip' hip'

/-- C4: `_check_endpoint_health` returns healthy exactly when the pod
listing succeeds and every member pod with an assigned address probes
healthy (HTTP 200). Hence members without an address are skipped, a
source with no addressed members is endpoint-healthy, and any listing or
probe error yields unhealthy instead of propagating, the function being
total into `Bool`. -/
theorem checkEndpointHealth_eq_true_iff (env : ClusterEnv) (sourceName : String) :
    checkEndpointHealth env sourceName = true ↔
      ∃ pods, env.podsOf sourceName = Except.ok pods ∧
        ∀ p ∈ pods, ∀ ip, p.podIp = some ip → env.probe ip = Except.ok true := by
  cases hps : env.podsOf sourceName with
  | error e => simp [checkEndpointHealth, hps]
  | ok pods => simp [checkEndpointHealth, hps, probePods_eq_true_iff]

/-- Witness for C4: a source whose single pod has no address is judged
endpoint-healthy even though every probe attempt would raise. -/
theorem checkEndpointHealth_skip_witness :
    checkEndpointHealth envSkipPods "s" = true :=
  (checkEndpointHealth_eq_true_iff envSkipPods "s").mpr
    ⟨[⟨none⟩], rfl, by simp⟩

/-- C3: for every listed deployment that has reported an available count,
the recorded verdict is the conjunction of exact replica equality
(`available == desired`) and the endpoint check — false whenever either
conjunct is false, true only when both are true. -/
theorem monitor_combined_verdict (env : ClusterEnv) (ds : List Deployment)
    (h : env.listDeployments = Except.ok ds) (d : Deployment) (hd : d ∈ ds)
    (a : Nat) (ha : d.availableReplicas = some a) :
    (d.sourceName, ((a == d.desiredReplicas) && checkEndpointHealth env d.sourceName))
      ∈ monitorLfrHealth env := by
  have hm := List.mem_map_of_mem
    (fun d : Deployment =>
      (d.sourceName,
        deploymentHealthy d.availableReplicas d.desiredReplicas &&
          checkEndpointHealth env d.sourceName)) hd
  simpa [monitorLfrHealth, h, deploymentHealthy, ha] using hm

/-- Witness for C3 (Scenario D): desired 3, available 2, all probes
healthy — the verdict recorded for the source is `false`. -/
theorem monitor_combined_verdict_witness :
    envScenarioD.listDeployments = Except.ok [⟨"app1", 3, some 2⟩] ∧
    (⟨"app1", 3, some 2⟩ : Deployment) ∈ [(⟨"app1", 3, some 2⟩ : Deployment)] ∧
    checkEndpointHealth envScenarioD "app1" = true ∧
    ("app1", false) ∈ monitorLfrHealth envScenarioD :=
  ⟨rfl, by simp, by decide, by
    simpa using monitor_combined_verdict envScenarioD [⟨"app1", 3, some 2⟩] rfl
      ⟨"app1", 3, some 2⟩ (by simp) 2 rfl⟩

/-- C9: a listed deployment whose available-replica count is absent is
recorded as unhealthy, whatever the endpoint probes say. -/
theorem monitor_none_unhealthy (env : ClusterEnv) (ds : List Deployment)
    (h : env.listDeployments = Except.ok ds) (d : Deployment) (hd : d ∈ ds)
    (ha : d.availableReplicas = none) :
    (d.sourceName, false) ∈ monitorLfrHealth env := by
  have hm := List.mem_map_of_mem
    (fun d : Deployment =>
      (d.sourceName,
        deploymentHealthy d.availableReplicas d.desiredReplicas &&
          checkEndpointHealth env d.sourceName)) hd
  simpa [monitorLfrHealth, h, deploymentHealthy, ha] using hm

/-- Witness for C9: `available_replicas = None` with every probe healthy
still yields verdict `false`. -/
theorem monitor_none_unhealthy_witness :
    envAvailNone.listDeployments = Except.ok [⟨"app1", 3, none⟩] ∧
    (⟨"app1", 3, none⟩ : Deployment) ∈ [(⟨"app1", 3, none⟩ : Deployment)] ∧
    checkEndpointHealth envAvailNone "app1" = true ∧
    ("app1", false) ∈ monitorLfrHealth envAvailNone :=
  ⟨rfl, by simp, by decide,
    monitor_none_unhealthy envAvailNone [⟨"app1", 3, none⟩] rfl
      ⟨"app1", 3, none⟩ (by simp) rfl⟩

/-- C10: when the deployment listing raises, `monitor_lfr_health` catches
the error and returns the status mapping accumulated so far — the empty
mapping, the listing being its first call — instead of raising. -/
theorem monitor_list_error (env : ClusterEnv)
    (h : env.listDeployments = Except.error ()) :
    monitorLfrHealth env = [] := by
  simp [monitorLfrHealth, h]

/-- Witness for C10: a failing listing yields the empty verdict map. -/
theorem monitor_list_error_witness :
    envListErr.listDeployments = Except.error () ∧ monitorLfrHealth envListErr = [] :=
  ⟨rfl, monitor_list_error envListErr rfl⟩

/-- Every action the loop body emits for a source targets that source's
name. -/
theorem reconcileOne_targetName (needsScaleUp : String → Bool)
    (currentReplicas : String → Nat) (observed : List String) (s : LogSourceSpec) :
    ∀ a ∈ reconcileOne needsScaleUp currentReplicas observed s,
      a.targetName = s.name := by
  unfold reconcileOne
  split_ifs <;> simp [Action.targetName]

/-- The loop body emits at most one action. -/
theorem reconcileOne_length (needsScaleUp : String → Bool)
    (currentReplicas : String → Nat) (observed : List String) (s : LogSourceSpec) :
    (reconcileOne needsScaleUp currentReplicas observed s).length ≤ 1 := by
  unfold reconcileOne
  split_ifs <;> simp

/-- The loop body emits either nothing or a single action. -/
theorem reconcileOne_cases (needsScaleUp : String → Bool)
    (currentReplicas : String → Nat) (observed : List String) (s : LogSourceSpec) :
    reconcileOne needsScaleUp currentReplicas observed s = [] ∨
      ∃ a, reconcileOne needsScaleUp currentReplicas observed s = [a] := by
  unfold reconcileOne
  split_ifs <;> simp

/-- No action targets a name carried by no configured source. -/
theorem reconcile_filter_of_not_mem (needsScaleUp : String → Bool)
    (currentReplicas : String → Nat) (desired : List LogSourceSpec)
    (observed : List String) (n : String) (hn : ∀ s ∈ desired, s.name ≠ n) :
    (reconcile needsScaleUp currentReplicas desired observed).filter
      (fun a => a.targetName == n) = [] := by
  induction desired with
  | nil => simp [reconcile]
  | cons s rest ih =>
    simp only [reconcile, List.filter_append]
    rw [List.filter_eq_nil_iff.mpr, ih fun t ht => hn t (List.mem_cons_of_mem _ ht)]
    · simp
    · intro a ha
      have := reconcileOne_targetName needsScaleUp currentReplicas observed s a ha
      simp [this, hn s (List.mem_cons_self s rest)]

/-- Every action a pass emits targets some configured source. -/
theorem reconcile_filter_of_name (needsScaleUp : String → Bool)
    (currentReplicas : String → Nat) (desired : List LogSourceSpec)
    (observed : List String) (s : LogSourceSpec)
    (hnd : (desired.map LogSourceSpec.name).Nodup) (hs : s ∈ desired) :
    (reconcile needsScaleUp currentReplicas desired observed).filter
        (fun a => a.targetName == s.name) =
      reconcileOne needsScaleUp currentReplicas observed s := by
  induction desired with
  | nil => cases hs
  | cons t rest ih =>
    have hnd' : (rest.map LogSourceSpec.name).Nodup := (List.nodup_cons.mp hnd).2
    have hnmem : t.name ∉ rest.map LogSourceSpec.name := (List.nodup_cons.mp hnd).1
    simp only [reconcile, List.filter_append]
    rcases List.mem_cons.mp hs with rfl | hs'
    · rw [List.filter_eq_self.mpr, reconcile_filter_of_not_mem]
      · simp
      · intro u hu hname
        exact hnmem (hname ▸ List.mem_map_of_mem LogSourceSpec.name hu)
      · intro a ha
        simp [reconcileOne_targetName needsScaleUp currentReplicas observed s a ha]
    · have hne : t.name ≠ s.name := by
        intro heq
        exact hnmem (heq ▸ List.mem_map_of_mem LogSourceSpec.name hs')
      rw [List.filter_eq_nil_iff.mpr, ih hnd' hs']
      · simp
      · intro a ha
        have := reconcileOne_targetName needsScaleUp currentReplicas observed t a ha
        simp [this, hne]

/-- C1: under unique source names, one reconciliation pass emits at most
one action per name, and the actions filtered to a configured source's
name follow the rule table: enabled and absent yields
`create(name, min)`; enabled and present yields
`scale(name, current + 1)` exactly when the scaling predicate fires;
disabled and present yields `delete(name)`; disabled and absent yields
nothing. -/
theorem reconcile_rule_table (needsScaleUp : String → Bool)
    (currentReplicas : String → Nat) (desired : List LogSourceSpec)
    (observed : List String) (hnd : (desired.map LogSourceSpec.name).Nodup) :
    (∀ n : String,
      ((reconcile needsScaleUp currentReplicas desired observed).filter
        (fun a => a.targetName == n)).length ≤ 1) ∧
    ∀ s ∈ desired,
      (reconcile needsScaleUp currentReplicas desired observed).filter
          (fun a => a.targetName == s.name) =
        (if s.enabled then
          if s.name ∈ observed then
            if needsScaleUp s.name then
              [Action.scale s.name (currentReplicas s.name + 1)]
            else []
          else [Action.create s.name s.instancesMin]
        else if s.name ∈ observed then [Action.delete s.name] else []) := by
  constructor
  · intro n
    by_cases hmem : n ∈ desired.map LogSourceSpec.name
    · rcases List.mem_map.mp hmem with ⟨s, hs, rfl⟩
      rw [reconcile_filter_of_name needsScaleUp currentReplicas desired observed s hnd hs]
      exact reconcileOne_length needsScaleUp currentReplicas observed s
    · rw [reconcile_filter_of_not_mem needsScaleUp currentReplicas desired observed n]
      · simp
      · intro s hs hname
        exact hmem (hname ▸ List.mem_map_of_mem LogSourceSpec.name hs)
  · intro s hs
    rw [reconcile_filter_of_name needsScaleUp currentReplicas desired observed s hnd hs]
    rfl

/-- A scaling predicate that never fires, and a current-replica lookup
returning 1, for concrete runs. -/
def noScaleUp : String → Bool := fun _ => false

/-- See `noScaleUp`. -/
def oneReplica : String → Nat := fun _ => 1

/-- Concrete desired state: `a` enabled (min 2), `b` disabled. -/
def desiredPair : List LogSourceSpec := [⟨"a", true, 2⟩, ⟨"b", false, 1⟩]

/-- Witness for C1: with observed `[b]`, source `a` (enabled, absent)
gets exactly `create a 2` and source `b` (disabled, present) gets
exactly `delete b`. -/
theorem reconcile_rule_table_witness :
    ((desiredPair.map LogSourceSpec.name).Nodup) ∧
    (((reconcile noScaleUp oneReplica desiredPair ["b"]).filter
        (fun a => a.targetName == "a")).length ≤ 1 ∧
      (reconcile noScaleUp oneReplica desiredPair ["b"]).filter
          (fun a => a.targetName == "a") = [Action.create "a" 2] ∧
      (reconcile noScaleUp oneReplica desiredPair ["b"]).filter
          (fun a => a.targetName == "b") = [Action.delete "b"]) := by
  have h := reconcile_rule_table noScaleUp oneReplica desiredPair ["b"] (by decide)
  refine ⟨by decide, h.1 "a", ?_, ?_⟩
  · have := h.2 ⟨"a", true, 2⟩ (by decide)
    simpa using this
  · have := h.2 ⟨"b", false, 1⟩ (by decide)
    simpa using this

/-- C7: when every enabled source is already observed with no scale-up
signal and every disabled source is absent, the pass emits no action. -/
theorem reconcile_idempotent (needsScaleUp : String → Bool)
    (currentReplicas : String → Nat) (desired : List LogSourceSpec)
    (observed : List String)
    (h : ∀ s ∈ desired,
      (s.enabled = true → s.name ∈ observed ∧ needsScaleUp s.name = false) ∧
      (s.enabled = false → s.name ∉ observed)) :
    reconcile needsScaleUp currentReplicas desired observed = [] := by
  induction desired with
  | nil => rfl
  | cons s rest ih =>
    have hs := h s (List.mem_cons_self s rest)
    have hone : reconcileOne needsScaleUp currentReplicas observed s = [] := by
      unfold reconcileOne
      cases he : s.enabled with
      | true =>
        rcases hs.1 he with ⟨hmem, hns⟩
        simp [hmem, hns]
      | false => simp [hs.2 he]
    simp only [reconcile, hone, List.nil_append]
    exact ih fun t ht => h t (List.mem_cons_of_mem _ ht)

/-- Desired state already realised by observed `[a]`: `a` enabled and
present, `b` disabled and absent. -/
def desiredSettled : List LogSourceSpec := [⟨"a", true, 2⟩, ⟨"b", false, 1⟩]

/-- Witness for C7: the settled pair yields the empty action sequence. -/
theorem reconcile_idempotent_witness :
    (∀ s ∈ desiredSettled,
      (s.enabled = true → s.name ∈ ["a"] ∧ noScaleUp s.name = false) ∧
      (s.enabled = false → s.name ∉ ["a"])) ∧
    reconcile noScaleUp oneReplica desiredSettled ["a"] = [] :=
  ⟨by decide, reconcile_idempotent noScaleUp oneReplica desiredSettled ["a"] (by decide)⟩

/-- C5 amended: executing the pass attempts its actions in loop order and
a cluster-API failure stops the pass at the failing action — the
remaining sources of that cycle are not processed (the re-raised
exception reaches the cycle-level handler). -/
theorem applySources_eq_abortAtFirstFailure (apiFails : Action → Bool)
    (needsScaleUp : String → Bool) (currentReplicas : String → Nat)
    (observed : List String) (desired : List LogSourceSpec) :
    applySources apiFails needsScaleUp currentReplicas observed desired =
      abortAtFirstFailure apiFails
        (reconcile needsScaleUp currentReplicas desired observed) := by
  induction desired with
  | nil => rfl
  | cons s rest ih =>
    rcases reconcileOne_cases needsScaleUp currentReplicas observed s with h | ⟨a, h⟩
    · simp only [applySources, reconcile, h, List.nil_append]
      exact ih
    · simp only [applySources, reconcile, h, List.singleton_append, abortAtFirstFailure]
      by_cases hfa : apiFails a
      · simp [hfa]
      · simp [hfa, ih]

/-- The cluster API failing exactly on `create a 1`. -/
def apiFailsOnA : Action → Bool := fun a => a == Action.create "a" 1

/-- Two enabled sources absent from observed state. -/
def desiredTwoNew : List LogSourceSpec := [⟨"a", true, 1⟩, ⟨"b", true, 2⟩]

/-- Counterexample to C5 as stated: with two enabled absent sources and
the cluster API failing on the first create, the cycle attempts only
`create a 1`; the second source's `create b 2` — emitted by the pass —
is never attempted in that cycle. -/
theorem applySources_abort_counterexample :
    applySources apiFailsOnA noScaleUp oneReplica [] desiredTwoNew =
      ([Action.create "a" 1], true) ∧
    Action.create "b" 2 ∈ reconcile noScaleUp oneReplica desiredTwoNew [] ∧
    Action.create "b" 2 ∉ (applySources apiFailsOnA noScaleUp oneReplica [] desiredTwoNew).1 := by
  decide

/-- Restarts issued never exceed the loop iterations still allowed. -/
theorem recoverGo_restarts_le (env : Nat → AttemptEnv) (sourceName : String) :
    ∀ remaining k restarts,
      (recoverGo env sourceName remaining k restarts).1 ≤ restarts + remaining := by
  intro remaining
  induction remaining with
  | zero => intro k restarts; simp [recoverGo]
  | succ n ih =>
    intro k restarts
    simp only [recoverGo]
    by_cases h1 : (env k).apiError
    · rw [if_pos h1]
      have := ih (k + 1) restarts
      omega
    · rw [if_neg h1]
      by_cases h2 : checkEndpointHealth (env k).post sourceName
      · rw [if_pos h2]
        show restarts + 1 ≤ restarts + (n + 1)
        omega
      · rw [if_neg h2]
        have := ih (k + 1) (restarts + 1)
        omega

/-- When no attempt's endpoint check succeeds, the loop consumes all
remaining iterations, issues one restart per attempt that did not hit a
cluster-API error, and ends failed. -/
theorem recoverGo_fail_count (env : Nat → AttemptEnv) (sourceName : String) :
    ∀ remaining k restarts,
      (∀ i, k ≤ i → i < k + remaining →
        checkEndpointHealth (env i).post sourceName = false) →
      recoverGo env sourceName remaining k restarts =
        (restarts + ((List.range' k remaining).filter
          (fun i => !(env i).apiError)).length, Outcome.failed) := by
  intro remaining
  induction remaining with
  | zero => intro k restarts _; simp [recoverGo]
  | succ n ih =>
    intro k restarts h
    have hk : checkEndpointHealth (env k).post sourceName = false :=
      h k (Nat.le_refl k) (by omega)
    simp only [recoverGo]
    by_cases h1 : (env k).apiError
    · rw [if_pos h1, ih (k + 1) restarts fun i hi hi' => h i (by omega) (by omega)]
      have hfil : List.filter (fun i => !(env i).apiError) (List.range' k (n + 1)) =
          List.filter (fun i => !(env i).apiError) (List.range' (k + 1) n) := by
        rw [List.range'_succ]
        simp [List.filter_cons, h1]
      rw [hfil]
    · have h1' : (env k).apiError = false := by simpa using h1
      rw [if_neg h1, if_neg (by simp [hk]),
        ih (k + 1) (restarts + 1) fun i hi hi' => h i (by omega) (by omega)]
      have hfil : List.filter (fun i => !(env i).apiError) (List.range' k (n + 1)) =
          k :: List.filter (fun i => !(env i).apiError) (List.range' (k + 1) n) := by
        rw [List.range'_succ]
        simp [List.filter_cons, h1']
      rw [hfil, List.length_cons, Prod.mk.injEq]
      exact ⟨by omega, rfl⟩

/-- C2: one recovery episode issues at most `maxRetries` restarts and
ends in exactly one of healthy or failed; when the endpoint check fails
after every attempt the episode ends failed after exactly the budget of
`maxRetries` attempts, issuing one restart per attempt whose cluster-API
calls did not raise — an API error consumes its attempt instead of
escalating. -/
theorem handleUnhealthy_attempt_budget (env : Nat → AttemptEnv) (sourceName : String) :
    (handleUnhealthyDeployment env sourceName).1 ≤ maxRetries ∧
    ((handleUnhealthyDeployment env sourceName).2 = Outcome.healthy ∨
      (handleUnhealthyDeployment env sourceName).2 = Outcome.failed) ∧
    ((∀ i, i < maxRetries →
        checkEndpointHealth (env i).post sourceName = false) →
      handleUnhealthyDeployment env sourceName =
        (((List.range maxRetries).filter (fun i => !(env i).apiError)).length,
          Outcome.failed)) := by
  refine ⟨?_, ?_, ?_⟩
  · have := recoverGo_restarts_le env sourceName maxRetries 0 0
    simpa [handleUnhealthyDeployment] using this
  · cases (handleUnhealthyDeployment env sourceName).2 <;> simp
  · intro h
    have := recoverGo_fail_count env sourceName maxRetries 0 0
      fun i hi hi' => h i (by omega)
    simpa [handleUnhealthyDeployment, List.range_eq_range'] using this

/-- A source whose endpoint probes always answer non-200. -/
def envUnhealthyEndpoint : ClusterEnv :=
  { podsOf := fun _ => Except.ok [⟨some "10.0.0.2"⟩]
    probe := fun _ => Except.ok false
    listDeployments := Except.ok [] }

/-- A recovery episode where attempt 0 hits a cluster-API error and
every endpoint check fails. -/
def attemptsOneApiError : Nat → AttemptEnv := fun i =>
  ⟨i == 0, envUnhealthyEndpoint⟩

/-- Witness for C2: with an API error on the first attempt and the
endpoint never recovering, the episode ends failed after its 3-attempt
budget with exactly 2 restarts issued — the error consumed an attempt,
and no 4th attempt happened. -/
theorem handleUnhealthy_attempt_budget_witness :
    (∀ i, i < maxRetries →
      checkEndpointHealth (attemptsOneApiError i).post "s" = false) ∧
    handleUnhealthyDeployment attemptsOneApiError "s" = (2, Outcome.failed) := by
  have h := (handleUnhealthy_attempt_budget attemptsOneApiError "s").2.2 (by decide)
  exact ⟨by decide, by rw [h]; decide⟩

/-- Index shift for bounded existentials, used to peel one loop
iteration. -/
theorem exists_lt_shift (Q : Nat → Prop) (n k : Nat) (hq : ¬Q k) :
    (∃ i, i < n ∧ Q (k + 1 + i)) ↔ ∃ i, i < n + 1 ∧ Q (k + i) := by
  constructor
  · rintro ⟨i, hi, h⟩
    refine ⟨i + 1, by omega, ?_⟩
    rw [show k + (i + 1) = k + 1 + i from by omega]
    exact h
  · rintro ⟨i, hi, h⟩
    cases i with
    | zero => exact absurd h hq
    | succ j =>
      refine ⟨j, by omega, ?_⟩
      rw [show k + 1 + j = k + (j + 1) from by omega]
      exact h

/-- The loop ends healthy exactly when some allowed attempt avoids a
cluster-API error and then passes the endpoint check. -/
theorem recoverGo_healthy_iff (env : Nat → AttemptEnv) (sourceName : String) :
    ∀ remaining k restarts,
      (recoverGo env sourceName remaining k restarts).2 = Outcome.healthy ↔
        ∃ i, i < remaining ∧ (env (k + i)).apiError = false ∧
          checkEndpointHealth (env (k + i)).post sourceName = true := by
  intro remaining
  induction remaining with
  | zero => intro k restarts; simp [recoverGo]
  | succ n ih =>
    intro k restarts
    simp only [recoverGo]
    by_cases h1 : (env k).apiError
    · rw [if_pos h1, ih (k + 1) restarts]
      exact exists_lt_shift
        (fun i => (env i).apiError = false ∧
          checkEndpointHealth (env i).post sourceName = true)
        n k (by simp [h1])
    · have h1' : (env k).apiError = false := by simpa using h1
      rw [if_neg h1]
      by_cases h2 : checkEndpointHealth (env k).post sourceName
      · rw [if_pos h2]
        simp only [true_iff]
        exact ⟨0, by omega, by simpa [h1'] using h2⟩
      · have h2' : checkEndpointHealth (env k).post sourceName = false := by
          simpa using h2
        rw [if_neg h2, ih (k + 1) (restarts + 1)]
        exact exists_lt_shift
          (fun i => (env i).apiError = false ∧
            checkEndpointHealth (env i).post sourceName = true)
          n k (by simp [h2'])

/-- C6 amended: a recovery episode ends healthy exactly when some attempt
within the budget avoids a cluster-API error and then passes the
endpoint probe check alone — the success check re-runs only
`_check_endpoint_health`, not the full combined workload-and-endpoint
verdict. -/
theorem handleUnhealthy_success_is_endpoint_check (env : Nat → AttemptEnv)
    (sourceName : String) :
    (handleUnhealthyDeployment env sourceName).2 = Outcome.healthy ↔
      ∃ i, i < maxRetries ∧ (env i).apiError = false ∧
        checkEndpointHealth (env i).post sourceName = true := by
  have h := recoverGo_healthy_iff env sourceName maxRetries 0 0
  simpa [handleUnhealthyDeployment] using h

/-- A cluster whose single deployment has 2 desired and only 1 available
replica while every endpoint probe answers 200. -/
def envWorkloadMismatch : ClusterEnv :=
  { podsOf := fun _ => Except.ok [⟨some "10.0.0.9"⟩]
    probe := fun _ => Except.ok true
    listDeployments := Except.ok [⟨"app1", 2, some 1⟩] }

/-- Recovery attempts against `envWorkloadMismatch`, no API errors. -/
def attemptsMismatch : Nat → AttemptEnv := fun _ => ⟨false, envWorkloadMismatch⟩

/-- Counterexample to C6 as stated: the episode transitions to healthy
after one attempt because the endpoint check passes, although the full
combined verdict for the source is false (1 of 2 replicas available). -/
theorem handleUnhealthy_success_counterexample :
    handleUnhealthyDeployment attemptsMismatch "app1" = (1, Outcome.healthy) ∧
    ("app1", false) ∈ monitorLfrHealth envWorkloadMismatch := by
  decide

/-- Witness for C6 amended: instantiating the equivalence on
`attemptsMismatch` shows the healthy exit with its endpoint-only
certificate at attempt 0. -/
theorem handleUnhealthy_success_witness :
    (handleUnhealthyDeployment attemptsMismatch "app1").2 = Outcome.healthy :=
  (handleUnhealthy_success_is_endpoint_check attemptsMismatch "app1").mpr
    ⟨0, by decide, by decide, by decide⟩

/-- C8 amended: validation raises `ValueError` exactly when the top-level
`kubernetes` field or the `log_sources` field is missing; the `namespace`
entry of the `kubernetes` mapping is not checked at load time. -/
theorem validateConfig_error_iff (doc : ConfigDoc) :
    (∃ msg, validateConfig doc = Except.error msg) ↔
      ("kubernetes" ∉ doc.topLevelFields ∨ "log_sources" ∉ doc.topLevelFields) := by
  by_cases h1 : "kubernetes" ∈ doc.topLevelFields <;>
    by_cases h2 : "log_sources" ∈ doc.topLevelFields <;>
      simp [validateConfig, requiredFields, validateFields, h1, h2]

/-- A document whose `kubernetes` mapping is empty: no `namespace`
anywhere, yet both validated fields are present. -/
def docNoNamespace : ConfigDoc := ⟨["kubernetes", "log_sources"], []⟩

/-- Counterexample to C8 as stated: a document with no `namespace` field
(neither top-level nor inside `kubernetes`) passes validation without a
configuration error. -/
theorem validateConfig_counterexample :
    validateConfig docNoNamespace = Except.ok () ∧
    "namespace" ∉ docNoNamespace.topLevelFields ∧
    "namespace" ∉ docNoNamespace.kubernetesFields :=
  ⟨rfl, by decide, by decide⟩

end LMMController
